import Mathlib

/-!
Verification of the `vecs` vector-math library (JadonBelair/vecs).

The library provides two generic value types, `Vec2<T>` and `Vec3<T>`
(files `src/vecs/vec2.rs`, `src/vecs/vec3.rs`, and an earlier revision in
`src/lib.rs`), with componentwise arithmetic, dot and cross products,
normalization and display formatting.  The element type `T` is bounded by
`num_traits::Float` in the final revision and by `Add + Sub + Mul (+ Neg)`
in the `lib.rs` revision (where integer elements are used in the doctests).

Embedding choices:
* For the algebraic and componentwise claims the element type is idealized
  as a commutative ring (exact arithmetic); the integer doctest literals
  instantiate it at `ℤ` and `ℚ`.
* For the claim about unguarded division by a zero length, IEEE float
  values are modelled by `F`: a finite rational, a signed infinity, or NaN
  (rounding and signed zero are not modelled; `sqrt` is kept as an
  explicit function parameter constrained only where the claim needs it).
* Rust's `write!(f, "({}, {})", x, y)` is modelled by a literal/argument
  template interpreted by `renderParts`.
-/

/-- 2D vector, from `struct Vec2<T> { x: T, y: T }`. -/
structure Vec2 (α : Type) where
  x : α
  y : α
  deriving DecidableEq

/-- 3D vector, from `struct Vec3<T> { x: T, y: T, z: T }`. -/
structure Vec3 (α : Type) where
  x : α
  y : α
  z : α
  deriving DecidableEq

namespace Vec2

variable {α : Type}

/-- `Vec2::new(x, y)`. -/
def new (x y : α) : Vec2 α := ⟨x, y⟩

/-- `Vec2::dot`: `self.x * other.x + self.y * other.y`. -/
def dot [Add α] [Mul α] (a b : Vec2 α) : α := a.x * b.x + a.y * b.y

/-- `Vec2::length_squared`: `self.x.powi(2) + self.y.powi(2)`. -/
def length_squared [Add α] [Monoid α] (a : Vec2 α) : α := a.x ^ 2 + a.y ^ 2

/-- `Vec2::normal`: `Vec2::new(-self.y, self.x)`. -/
def normal [Neg α] (a : Vec2 α) : Vec2 α := new (-a.y) a.x

/-- `impl Add for Vec2`. -/
instance [Add α] : Add (Vec2 α) where
  add a b := ⟨a.x + b.x, a.y + b.y⟩

/-- `impl Sub for Vec2`. -/
instance [Sub α] : Sub (Vec2 α) where
  sub a b := ⟨a.x - b.x, a.y - b.y⟩

/-- `impl Neg for Vec2`: `Vec2::new(-self.x, -self.y)`. -/
instance [Neg α] : Neg (Vec2 α) where
  neg a := ⟨-a.x, -a.y⟩

/-- `impl AddAssign for Vec2` (`self.x += rhs.x; self.y += rhs.y`),
as the value the mutated left operand holds afterwards. -/
def addAssign [Add α] (a b : Vec2 α) : Vec2 α := ⟨a.x + b.x, a.y + b.y⟩

/-- `impl SubAssign for Vec2` (`self.x -= rhs.x; self.y -= rhs.y`),
as the value the mutated left operand holds afterwards. -/
def subAssign [Sub α] (a b : Vec2 α) : Vec2 α := ⟨a.x - b.x, a.y - b.y⟩

/-- The `derive(PartialEq)` equality on `Vec2`, parameterized by the
element type's equality test `e`: `self.x == other.x && self.y == other.y`. -/
def beqWith (e : α → α → Bool) (a b : Vec2 α) : Bool := e a.x b.x && e a.y b.y

theorem add_def [Add α] (a b : Vec2 α) : a + b = ⟨a.x + b.x, a.y + b.y⟩ := rfl

theorem sub_def [Sub α] (a b : Vec2 α) : a - b = ⟨a.x - b.x, a.y - b.y⟩ := rfl

theorem neg_def [Neg α] (a : Vec2 α) : -a = ⟨-a.x, -a.y⟩ := rfl

end Vec2

namespace Vec3

variable {α : Type}

/-- `Vec3::new(x, y, z)`. -/
def new (x y z : α) : Vec3 α := ⟨x, y, z⟩

/-- `Vec3::dot`: `self.x * other.x + self.y * other.y + self.z * other.z`. -/
def dot [Add α] [Mul α] (a b : Vec3 α) : α := a.x * b.x + a.y * b.y + a.z * b.z

/-- `Vec3::cross`:
`let x = (self.y * other.z) - (self.z * other.y);`
`let y = (self.x * other.z) - (self.z * other.x);`
`let z = (self.x * other.y) - (self.y * other.x);`
`Vec3::new(x, -y, z)`. -/
def cross [Sub α] [Mul α] [Neg α] (a b : Vec3 α) : Vec3 α :=
  let x := (a.y * b.z) - (a.z * b.y)
  let y := (a.x * b.z) - (a.z * b.x)
  let z := (a.x * b.y) - (a.y * b.x)
  new x (-y) z

/-- `impl Add for Vec3`. -/
instance [Add α] : Add (Vec3 α) where
  add a b := ⟨a.x + b.x, a.y + b.y, a.z + b.z⟩

/-- `impl Sub for Vec3`. -/
instance [Sub α] : Sub (Vec3 α) where
  sub a b := ⟨a.x - b.x, a.y - b.y, a.z - b.z⟩

/-- `impl Neg for Vec3`: `Vec3::new(-self.x, -self.y, -self.z)`. -/
instance [Neg α] : Neg (Vec3 α) where
  neg a := ⟨-a.x, -a.y, -a.z⟩

/-- `impl AddAssign for Vec3`, as the value the left operand holds afterwards. -/
def addAssign [Add α] (a b : Vec3 α) : Vec3 α := ⟨a.x + b.x, a.y + b.y, a.z + b.z⟩

/-- `impl SubAssign for Vec3`, as the value the left operand holds afterwards. -/
def subAssign [Sub α] (a b : Vec3 α) : Vec3 α := ⟨a.x - b.x, a.y - b.y, a.z - b.z⟩

/-- The `derive(PartialEq)` equality on `Vec3`, parameterized by the
element type's equality test `e`. -/
def beqWith (e : α → α → Bool) (a b : Vec3 α) : Bool :=
  e a.x b.x && (e a.y b.y && e a.z b.z)

theorem add3_def [Add α] (a b : Vec3 α) : a + b = ⟨a.x + b.x, a.y + b.y, a.z + b.z⟩ := rfl

theorem sub3_def [Sub α] (a b : Vec3 α) : a - b = ⟨a.x - b.x, a.y - b.y, a.z - b.z⟩ := rfl

theorem neg3_def [Neg α] (a : Vec3 α) : -a = ⟨-a.x, -a.y, -a.z⟩ := rfl

end Vec3

/-- C1: `Vec3::cross` returns the vector whose x component is
`a.y*b.z - a.z*b.y`, whose y component is the intermediate
`a.x*b.z - a.z*b.x` negated, and whose z component is `a.x*b.y - a.y*b.x`;
in particular `Vec3::new(3,6,8).cross(Vec3::new(9,4,7)) == Vec3::new(10,51,-42)`. -/
theorem cross_components :
    (∀ (a b : Vec3 ℤ),
      (a.cross b).x = a.y * b.z - a.z * b.y ∧
      (a.cross b).y = -(a.x * b.z - a.z * b.x) ∧
      (a.cross b).z = a.x * b.y - a.y * b.x) ∧
    (Vec3.new (3 : ℤ) 6 8).cross (Vec3.new 9 4 7) = Vec3.new 10 51 (-42) := by
  refine ⟨fun a b => ⟨rfl, rfl, rfl⟩, ?_⟩
  decide

/-- C2: `Vec2::normal` returns the left-hand perpendicular `(-y, x)`;
in particular `Vec2::new(4,9).normal() == Vec2::new(-9,4)`, and that result
is not unit-length (its squared length is 97, not 1), so `normal` is not a
normalization. -/
theorem normal_is_perpendicular :
    (∀ (v : Vec2 ℚ), v.normal = Vec2.new (-v.y) v.x) ∧
    (Vec2.new (4 : ℚ) 9).normal = Vec2.new (-9) 4 ∧
    ((Vec2.new (4 : ℚ) 9).normal).length_squared ≠ 1 := by
  refine ⟨fun v => rfl, rfl, ?_⟩
  simp only [Vec2.new, Vec2.normal, Vec2.length_squared]
  norm_num

/-- C4: the cross product is anti-commutative: for all 3D vectors `a` and
`b`, `a.cross(b)` equals the componentwise negation of `b.cross(a)`. -/
theorem cross_anticommutative {α : Type} [CommRing α] (a b : Vec3 α) :
    a.cross b = -(b.cross a) := by
  simp only [Vec3.cross, Vec3.neg3_def, Vec3.new, Vec3.mk.injEq]
  refine ⟨by ring, by ring, by ring⟩

/-- C5: the dot product is commutative, on `Vec2` and on `Vec3`:
`a.dot(b) == b.dot(a)`. -/
theorem dot_comm {α : Type} [CommRing α] (a b : Vec2 α) (c d : Vec3 α) :
    a.dot b = b.dot a ∧ c.dot d = d.dot c := by
  constructor
  · simp only [Vec2.dot]; ring
  · simp only [Vec3.dot]; ring

/-- C6: subtracting a vector from itself gives the zero vector, on `Vec2`
and on `Vec3`: `a - a == Vector(0,...)`. -/
theorem sub_self_eq_zero {α : Type} [CommRing α] (a : Vec2 α) (b : Vec3 α) :
    a - a = Vec2.new 0 0 ∧ b - b = Vec3.new 0 0 0 := by
  constructor
  · simp [Vec2.sub_def, Vec2.new]
  · simp [Vec3.sub3_def, Vec3.new]

/-- C7: the in-place accumulate operators agree with the pure operators:
after `a += b` the left operand equals `a + b`, and after `a -= b` it
equals `a - b`, on `Vec2` and on `Vec3`. -/
theorem assign_ops_agree {α : Type} [CommRing α]
    (a b : Vec2 α) (c d : Vec3 α) :
    a.addAssign b = a + b ∧ a.subAssign b = a - b ∧
    c.addAssign d = c + d ∧ c.subAssign d = c - d :=
  ⟨rfl, rfl, rfl, rfl⟩

/-- C8: the derived equality is structural and componentwise: `a == b`
holds exactly when every corresponding pair of components is equal under
the element type's equality test `e`, and any differing component yields
inequality, on `Vec2` and on `Vec3`. -/
theorem beq_structural {α : Type} (e : α → α → Bool)
    (a b : Vec2 α) (c d : Vec3 α) :
    (Vec2.beqWith e a b = true ↔ (e a.x b.x = true ∧ e a.y b.y = true)) ∧
    (Vec3.beqWith e c d = true ↔
      (e c.x d.x = true ∧ e c.y d.y = true ∧ e c.z d.z = true)) := by
  constructor
  · simp [Vec2.beqWith]
  · simp [Vec3.beqWith, and_assoc]

/-- C10: applying `Vec2::normal` twice is the componentwise negation:
`v.normal().normal() == -v`. -/
theorem normal_normal_eq_neg {α : Type} [CommRing α] (v : Vec2 α) :
    v.normal.normal = -v := by
  simp [Vec2.normal, Vec2.new, Vec2.neg_def]

/-- Idealized IEEE floating-point value for the element type `T: Float`:
a finite value (kept exact as a rational; rounding and signed zero are not
modelled), a signed infinity, or NaN. -/
inductive F where
  | num : ℚ → F
  | inf : F
  | neginf : F
  | nan : F
  deriving DecidableEq

namespace F

/-- Whether the value is finite (neither an infinity nor NaN). -/
def isFinite : F → Bool
  | num _ => true
  | _ => false

/-- IEEE addition on `F` values. -/
def add : F → F → F
  | num a, num b => num (a + b)
  | num _, inf => inf
  | num _, neginf => neginf
  | inf, num _ => inf
  | neginf, num _ => neginf
  | inf, inf => inf
  | neginf, neginf => neginf
  | _, _ => nan

/-- IEEE multiplication on `F` values. -/
def mul : F → F → F
  | num a, num b => num (a * b)
  | num a, inf => if 0 < a then inf else if a < 0 then neginf else nan
  | num a, neginf => if 0 < a then neginf else if a < 0 then inf else nan
  | inf, num b => if 0 < b then inf else if b < 0 then neginf else nan
  | neginf, num b => if 0 < b then neginf else if b < 0 then inf else nan
  | inf, inf => inf
  | neginf, neginf => inf
  | inf, neginf => neginf
  | neginf, inf => neginf
  | _, _ => nan

/-- IEEE division on `F` values: a nonzero finite value divided by zero
gives a signed infinity, `0/0` gives NaN, and NaN propagates. -/
def div : F → F → F
  | num a, num b =>
      if b = 0 then (if a = 0 then nan else if 0 < a then inf else neginf)
      else num (a / b)
  | num _, inf => num 0
  | num _, neginf => num 0
  | inf, num b => if b < 0 then neginf else inf
  | neginf, num b => if b < 0 then inf else neginf
  | _, _ => nan

theorem div_num_zero_not_finite (a : F) : (a.div (num 0)).isFinite = false := by
  cases a with
  | num q =>
      by_cases h0 : q = 0
      · simp [div, h0, isFinite]
      · by_cases hp : 0 < q
        · simp [div, h0, hp, isFinite]
        · simp [div, h0, hp, isFinite]
  | inf => simp [div, isFinite]
  | neginf => simp [div, isFinite]
  | nan => rfl

end F

/-- `Vec2<T>` with IEEE float elements. -/
structure Vec2F where
  x : F
  y : F
  deriving DecidableEq

namespace Vec2F

/-- `Vec2::length_squared` over `F`: `self.x.powi(2) + self.y.powi(2)`
(`powi(2)` squares by self-multiplication). -/
def length_squared (v : Vec2F) : F := (v.x.mul v.x).add (v.y.mul v.y)

/-- `Vec2::length` over `F`: `(self.x.powi(2) + self.y.powi(2)).sqrt()`,
with the element type's `sqrt` passed in as `s`. -/
def length (s : F → F) (v : Vec2F) : F := s v.length_squared

/-- `impl Div<T> for Vec2` over `F`: `Vec2::new(self.x / rhs, self.y / rhs)`. -/
def divScalar (v : Vec2F) (r : F) : Vec2F := ⟨v.x.div r, v.y.div r⟩

/-- `Vec2::normalize` over `F`:
`let length = self.length(); *self / length`. -/
def normalize (s : F → F) (v : Vec2F) : Vec2F := v.divScalar (v.length s)

end Vec2F

/-- `Vec3<T>` with IEEE float elements. -/
structure Vec3F where
  x : F
  y : F
  z : F
  deriving DecidableEq

namespace Vec3F

/-- `Vec3::length_squared` over `F`. -/
def length_squared (v : Vec3F) : F :=
  ((v.x.mul v.x).add (v.y.mul v.y)).add (v.z.mul v.z)

/-- `Vec3::length` over `F`, with the element type's `sqrt` passed in as `s`. -/
def length (s : F → F) (v : Vec3F) : F := s v.length_squared

/-- `impl Div<T> for Vec3` over `F`. -/
def divScalar (v : Vec3F) (r : F) : Vec3F := ⟨v.x.div r, v.y.div r, v.z.div r⟩

/-- `Vec3::normalize` over `F`:
`let length = self.length(); *self / length`. -/
def normalize (s : F → F) (v : Vec3F) : Vec3F := v.divScalar (v.length s)

end Vec3F

/-- C3: `normalize` is the componentwise division of the vector by its
`length` (the square root of the sum of the squared components), performed
unconditionally; when the length is zero the division still happens, with
no guard, and every component of the result is non-finite (NaN or an
infinity) rather than an error being raised.  Stated for `Vec2` and
`Vec3`, for any square-root function `s` on the element type. -/
theorem normalize_unguarded (s : F → F) (v : Vec2F) (w : Vec3F)
    (hv : v.length s = F.num 0) (hw : w.length s = F.num 0) :
    v.normalize s = v.divScalar (v.length s) ∧
    w.normalize s = w.divScalar (w.length s) ∧
    ((v.normalize s).x.isFinite = false ∧ (v.normalize s).y.isFinite = false) ∧
    ((w.normalize s).x.isFinite = false ∧ (w.normalize s).y.isFinite = false ∧
      (w.normalize s).z.isFinite = false) := by
  refine ⟨rfl, rfl, ?_, ?_⟩
  · rw [Vec2F.normalize, hv]
    exact ⟨F.div_num_zero_not_finite v.x, F.div_num_zero_not_finite v.y⟩
  · rw [Vec3F.normalize, hw]
    exact ⟨F.div_num_zero_not_finite w.x, F.div_num_zero_not_finite w.y,
      F.div_num_zero_not_finite w.z⟩

/-- C3 witness: at the zero vectors, with a square root function sending 0
to 0, normalizing divides by zero and produces NaN components. -/
theorem normalize_unguarded_witness :
    (Vec2F.normalize (fun r => r) ⟨F.num 0, F.num 0⟩).x.isFinite = false ∧
    (Vec3F.normalize (fun r => r) ⟨F.num 0, F.num 0, F.num 0⟩).z.isFinite = false := by
  have h := normalize_unguarded (fun r => r) ⟨F.num 0, F.num 0⟩
    ⟨F.num 0, F.num 0, F.num 0⟩
    (by simp [Vec2F.length, Vec2F.length_squared, F.mul, F.add])
    (by simp [Vec3F.length, Vec3F.length_squared, F.mul, F.add])
  exact ⟨h.2.2.1.1, h.2.2.2.2.2⟩

/-- One piece of a Rust format string: a literal chunk or a `{}` argument
rendered with the element type's Display. -/
inductive FmtPart (α : Type) where
  | lit : String → FmtPart α
  | arg : α → FmtPart α

/-- Interprets a format template, rendering each `{}` argument with `f`,
as Rust's `write!` does. -/
def renderParts {α : Type} (f : α → String) : List (FmtPart α) → String
  | [] => ""
  | .lit s :: rest => s ++ renderParts f rest
  | .arg a :: rest => f a ++ renderParts f rest

/-- `impl Display for Vec2`: `write!(f, "({}, {})", self.x, self.y)`,
with `f` the element type's Display rendering. -/
def Vec2.display {α : Type} (f : α → String) (v : Vec2 α) : String :=
  renderParts f [.lit "(", .arg v.x, .lit ", ", .arg v.y, .lit ")"]

/-- `impl Display for Vec3`: `write!(f, "({}, {}, {})", self.x, self.y, self.z)`,
with `f` the element type's Display rendering. -/
def Vec3.display {α : Type} (f : α → String) (v : Vec3 α) : String :=
  renderParts f [.lit "(", .arg v.x, .lit ", ", .arg v.y, .lit ", ",
    .arg v.z, .lit ")"]

/-- C9: the textual rendering of a 2D vector is the string `"(x, y)"` and
of a 3D vector the string `"(x, y, z)"`, each component printed with the
element type's own rendering `f`; instantiated at `ℤ` with `toString`,
`Vec2::new(29, 15)` renders as `"(29, 15)"` (the `lib.rs` doctest). -/
theorem display_format :
    (∀ (α : Type) (f : α → String) (v : Vec2 α),
      v.display f = "(" ++ f v.x ++ ", " ++ f v.y ++ ")") ∧
    (∀ (α : Type) (f : α → String) (v : Vec3 α),
      v.display f = "(" ++ f v.x ++ ", " ++ f v.y ++ ", " ++ f v.z ++ ")") ∧
    (Vec2.new (29 : ℤ) 15).display (fun n => toString n) = "(29, 15)" := by
  refine ⟨?_, ?_, rfl⟩
  · intro α f v
    simp [Vec2.display, renderParts, String.append_assoc]
  · intro α f v
    simp [Vec3.display, renderParts, String.append_assoc]
